import Mathlib

/-!
Verification of the payments API cache/mutation/persistence core
(`payments_api/__init__.py`) against its natural-language specification.

The Python module is shallowly embedded: records are a Lean structure
mirroring the JSON objects (the semantic fields plus an opaque bag of
extra fields), the randomness consumed by `maybe_update_status`
(`random.random() < 0.3`, `random.choice`, `datetime.utcnow()`) is
supplied by an explicit `Oracle` argument so that every theorem
quantifies over all possible draws, and the request handlers become
state-passing functions returning the HTTP outcome together with the
count of `save_data_async` invocations they perform.
-/

/-- A payment record as stored in `DATA_CACHE`: the semantic fields the
code reads and writes (`id`, `processing_date`, `psp_name`, `status`,
`status_updated_at`) plus an opaque association list standing for every
other JSON field, preserved verbatim. -/
structure Record where
  id : String
  processing_date : String
  psp_name : String
  status : String
  status_updated_at : Option String
  extra : List (String × String)
deriving DecidableEq

/-- `STATUS_TRANSITIONS = {"pending": ["approved", "declined"]}`. -/
def STATUS_TRANSITIONS : List (String × List String) :=
  [("pending", ["approved", "declined"])]

/-- One invocation's worth of external nondeterminism for
`maybe_update_status`: `advance` is the outcome of
`random.random() < 0.3`, `choiceIdx` selects the destination inside
`random.choice`, and `now` is `datetime.datetime.utcnow().isoformat() + "Z"`. -/
structure Oracle where
  advance : Bool
  choiceIdx : Nat
  now : String

/-- `random.choice(l)`: an arbitrary element of `l`, selected here by the
oracle index reduced modulo the length. -/
def random_choice (l : List String) (i : Nat) : String :=
  l.getD (i % l.length) ""

/-- `maybe_update_status(record)`: if the status is exactly `"pending"`
and the probabilistic draw fires, set `status` to a choice among
`STATUS_TRANSITIONS["pending"]` and stamp `status_updated_at`;
otherwise return the record unchanged. -/
def maybe_update_status (o : Oracle) (r : Record) : Record :=
  if r.status = "pending" ∧ o.advance then
    { r with
      status := random_choice ((STATUS_TRANSITIONS.lookup "pending").getD []) o.choiceIdx,
      status_updated_at := some o.now }
  else r

/-- Repeated invocations of the simulator on one record, one oracle per
invocation. -/
def iterate_updates : List Oracle → Record → Record
  | [], r => r
  | o :: os, r => iterate_updates os (maybe_update_status o r)

lemma maybe_update_status_of_ne_pending (o : Oracle) (r : Record)
    (h : r.status ≠ "pending") : maybe_update_status o r = r := by
  unfold maybe_update_status
  rw [if_neg]
  rintro ⟨h1, _⟩
  exact h h1

lemma random_choice_pending_mem (i : Nat) :
    random_choice ((STATUS_TRANSITIONS.lookup "pending").getD []) i ∈
      ["approved", "declined"] := by
  have h2 : i % 2 = 0 ∨ i % 2 = 1 := Nat.mod_two_eq_zero_or_one i
  rcases h2 with h | h <;>
    simp [random_choice, STATUS_TRANSITIONS, List.lookup, h]

lemma maybe_update_status_status_pending (o : Oracle) (r : Record)
    (h : (maybe_update_status o r).status = "pending") : r.status = "pending" := by
  by_cases hp : r.status = "pending" ∧ o.advance
  · exact hp.1
  · rwa [maybe_update_status, if_neg hp] at h

/-- C1: a record whose status is not `pending` is returned unchanged by
`maybe_update_status`, any sequence of further invocations leaves it
unchanged, and no invocation ever moves a record into `pending` that was
not already there: the non-`pending` statuses are absorbing. -/
theorem transitions_one_way :
    (∀ (r : Record), r.status ≠ "pending" → ∀ o : Oracle, maybe_update_status o r = r)
    ∧ (∀ (r : Record), r.status ≠ "pending" → ∀ os : List Oracle, iterate_updates os r = r)
    ∧ (∀ (o : Oracle) (r : Record),
        (maybe_update_status o r).status = "pending" → r.status = "pending") := by
  refine ⟨fun r h o => maybe_update_status_of_ne_pending o r h, fun r h os => ?_,
    maybe_update_status_status_pending⟩
  induction os with
  | nil => rfl
  | cons o os ih =>
    rw [iterate_updates, maybe_update_status_of_ne_pending o r h]
    exact ih

/-- C10: the simulator changes at most `status` and `status_updated_at`
(identity, dates, PSP name and the opaque extra fields survive), and when
it does advance a pending record the new status is one of the transition
table's destinations for `pending` and the timestamp becomes non-null. -/
theorem maybe_update_status_frame :
    ∀ (o : Oracle) (r : Record),
      (maybe_update_status o r) =
        { r with
          status := (maybe_update_status o r).status,
          status_updated_at := (maybe_update_status o r).status_updated_at }
      ∧ (r.status = "pending" → o.advance = true →
          (maybe_update_status o r).status ∈ (STATUS_TRANSITIONS.lookup "pending").getD []
          ∧ (maybe_update_status o r).status_updated_at.isSome = true)
      ∧ ((maybe_update_status o r).status ≠ r.status →
          r.status = "pending"
          ∧ (maybe_update_status o r).status ∈ (STATUS_TRANSITIONS.lookup "pending").getD []
          ∧ (maybe_update_status o r).status_updated_at.isSome = true) := by
  intro o r
  by_cases hp : r.status = "pending" ∧ o.advance
  · have hmem := random_choice_pending_mem o.choiceIdx
    constructor
    · simp [maybe_update_status, hp]
    constructor
    · intro _ _
      constructor
      · simpa [maybe_update_status, hp, STATUS_TRANSITIONS, List.lookup] using hmem
      · simp [maybe_update_status, hp]
    · intro _
      refine ⟨hp.1, ?_, ?_⟩
      · simpa [maybe_update_status, hp, STATUS_TRANSITIONS, List.lookup] using hmem
      · simp [maybe_update_status, hp]
  · rw [maybe_update_status, if_neg hp]
    refine ⟨rfl, fun h1 h2 => absurd ⟨h1, h2⟩ hp, fun h => absurd rfl h⟩

/-! ## Filtering (`GET /payments`, lines 70-76) -/

/-- Python's `str.lower()`, written structurally over the character
list so that concrete instances evaluate. -/
def lower (s : String) : String := ⟨s.data.map Char.toLower⟩

/-- Python's `str.startswith(d)`, written structurally over the
character lists. -/
def startswith (d s : String) : Bool := d.data.isPrefixOf s.data

/-- Python truthiness of an optional query-string value: `if date:` is
taken exactly when the value is present and non-empty. -/
def truthy : Option String → Bool
  | none => false
  | some s => decide (s ≠ "")

/-- One `if <param>: data = [p for p in data if q(param, p)]` statement. -/
def condFilter (o : Option String) (q : String → Record → Bool)
    (l : List Record) : List Record :=
  if truthy o then l.filter (fun p => q (o.getD "") p) else l

/-- The three successive filter statements of `get_payments`:
date-prefix on `processing_date`, case-insensitive equality on
`psp_name`, case-insensitive equality on `status`, applied in that
order to `DATA_CACHE`. -/
def filteredData (date psp_name status : Option String)
    (cache : List Record) : List Record :=
  condFilter status (fun s p => lower p.status = lower s)
    (condFilter psp_name (fun s p => lower p.psp_name = lower s)
      (condFilter date (fun d p => startswith d p.processing_date) cache))

/-- The conjunction of the supplied predicates, as the specification
states them: a missing filter constrains nothing, a supplied `date` must
be a prefix of `processing_date`, a supplied `psp_name` or `status` must
match case-insensitively. -/
def matchesFilters (date psp_name status : Option String) (r : Record) : Bool :=
  (date.all fun d => startswith d r.processing_date)
  && (psp_name.all fun s => lower r.psp_name = lower s)
  && (status.all fun s => lower r.status = lower s)

lemma mem_condFilter (o : Option String) (q : String → Record → Bool)
    (l : List Record) (r : Record) (h : o ≠ some "") :
    r ∈ condFilter o q l ↔ r ∈ l ∧ (o.all fun s => q s r) = true := by
  cases o with
  | none => simp [condFilter, truthy]
  | some s =>
    by_cases hs : s = ""
    · exact absurd (by rw [hs]) h
    · simp [condFilter, truthy, hs, List.mem_filter]

lemma condFilter_sublist (o : Option String) (q : String → Record → Bool)
    (l : List Record) : List.Sublist (condFilter o q l) l := by
  unfold condFilter
  split
  · exact List.filter_sublist l
  · exact List.Sublist.refl l

/-! ## The simulation pass of `get_payments` (lines 78-86) -/

/-- The `for record in data` loop: invoke the simulator on every record
of the filtered result in order (the oracle argument supplies the `i`-th
invocation's randomness), accumulating whether any record's status
changed (`updated_any`). -/
def simulate_records (os : Nat → Oracle) :
    List Record → Nat → Bool → List Record × Bool
  | [], _, updated_any => ([], updated_any)
  | record :: rest, i, updated_any =>
    let record2 := maybe_update_status (os i) record
    let out := simulate_records os rest (i + 1)
      (updated_any || decide (record2.status ≠ record.status))
    (record2 :: out.1, out.2)

lemma simulate_records_getElem (os : Nat → Oracle) (l : List Record) :
    ∀ (i : Nat) (b : Bool) (j : Nat),
      ((simulate_records os l i b).1)[j]? =
        (l[j]?).map fun r => maybe_update_status (os (i + j)) r := by
  induction l with
  | nil => intro i b j; simp [simulate_records]
  | cons r rest ih =>
    intro i b j
    cases j with
    | zero => simp [simulate_records]
    | succ j =>
      have := ih (i + 1) (b || decide ((maybe_update_status (os i) r).status ≠ r.status)) j
      simpa [simulate_records, Nat.add_assoc, Nat.add_comm 1 j] using this

lemma simulate_records_length (os : Nat → Oracle) (l : List Record) :
    ∀ (i : Nat) (b : Bool), ((simulate_records os l i b).1).length = l.length := by
  induction l with
  | nil => intro i b; rfl
  | cons r rest ih =>
    intro i b
    simpa [simulate_records] using ih (i + 1) _

lemma simulate_records_flag (os : Nat → Oracle) (l : List Record) :
    ∀ (i : Nat) (b : Bool),
      ((simulate_records os l i b).2 = true ↔
        b = true ∨ ∃ j r, l[j]? = some r
          ∧ (maybe_update_status (os (i + j)) r).status ≠ r.status) := by
  induction l with
  | nil =>
    intro i b
    simp [simulate_records]
  | cons r rest ih =>
    intro i b
    rw [simulate_records]
    have hrec := ih (i + 1) (b || decide ((maybe_update_status (os i) r).status ≠ r.status))
    rw [hrec]
    constructor
    · rintro (hb | ⟨j, s, hj, hs⟩)
      · rcases Bool.or_eq_true_iff.mp hb with hb | hd
        · exact Or.inl hb
        · exact Or.inr ⟨0, r, by simp, by simpa using of_decide_eq_true hd⟩
      · refine Or.inr ⟨j + 1, s, by simpa using hj, ?_⟩
        rwa [show i + (j + 1) = i + 1 + j by omega]
    · rintro (hb | ⟨j, s, hj, hs⟩)
      · exact Or.inl (by simp [hb])
      · cases j with
        | zero =>
          refine Or.inl ?_
          simp only [List.getElem?_cons_zero, Option.some.injEq] at hj
          subst hj
          simp [decide_eq_true (by simpa using hs)]
        | succ j =>
          refine Or.inr ⟨j, s, by simpa using hj, ?_⟩
          rwa [show i + 1 + j = i + (j + 1) by omega]

/-! ## HTTP outcomes and the JSON response of `get_payments` -/

/-- `HTTPException(status_code=..., detail=...)`. -/
structure HTTPError where
  status_code : Nat
  detail : String
deriving DecidableEq

/-- A JSON value appearing in the handlers' response dictionaries. -/
inductive JVal where
  | jnull : JVal
  | jstr : String → JVal
  | jnat : Nat → JVal
  | jrecords : List Record → JVal
deriving DecidableEq

/-- An optional string serialized into JSON (`None` becomes `null`). -/
def joptStr : Option String → JVal
  | none => JVal.jnull
  | some s => JVal.jstr s

/-- The dictionary literal returned by `get_payments`: exactly the keys
`date`, `page`, `limit`, `count`, `data`, in source order. -/
def mkListJson (date : Option String) (page limit : Nat)
    (page_data : List Record) : List (String × JVal) :=
  [("date", joptStr date), ("page", JVal.jnat page), ("limit", JVal.jnat limit),
   ("count", JVal.jnat page_data.length), ("data", JVal.jrecords page_data)]

deriving instance DecidableEq for Except

/-- What one `GET /payments` call produces: the number of
`save_data_async` invocations it performed and either the JSON response
or the raised `HTTPException`. -/
structure ListOutcome where
  persistCalls : Nat
  result : Except HTTPError (List (String × JVal))
deriving DecidableEq

/-- `get_payments(date, page, limit, psp_name, status)` over a given
cache: filter, simulate every filtered record (setting `updated_any`),
persist once if anything changed, slice `data[start:end]`, and either
raise 404 `"No more records"` on an empty slice or return the response
dictionary. -/
def get_payments (date : Option String) (page limit : Nat)
    (psp_name status : Option String) (os : Nat → Oracle)
    (cache : List Record) : ListOutcome :=
  let data := filteredData date psp_name status cache
  let sim := simulate_records os data 0 false
  let persists := if sim.2 then 1 else 0
  let start := (page - 1) * limit
  let stop := page * limit
  let page_data := (sim.1.drop start).take (stop - start)
  if page_data.isEmpty then
    { persistCalls := persists, result := Except.error ⟨404, "No more records"⟩ }
  else
    { persistCalls := persists, result := Except.ok (mkListJson date page limit page_data) }

/-- What one `GET /payments/{txn_id}` call produces: the response or the
404, the cache after the in-place mutation, and the number of
`save_data_async` invocations. -/
structure GetOutcome where
  result : Except HTTPError Record
  cache : List Record
  persistCalls : Nat
deriving DecidableEq

/-- `get_payment(txn_id)`: scan `DATA_CACHE` in order; at the first
record whose `id` matches, simulate once, persist if the status changed
and return the record; if the scan is exhausted, raise 404
`"Transaction not found"`. -/
def get_payment (txn_id : String) (o : Oracle) : List Record → GetOutcome
  | [] => ⟨Except.error ⟨404, "Transaction not found"⟩, [], 0⟩
  | record :: rest =>
    if record.id = txn_id then
      let record2 := maybe_update_status o record
      ⟨Except.ok record2, record2 :: rest,
        if record2.status ≠ record.status then 1 else 0⟩
    else
      let out := get_payment txn_id o rest
      ⟨out.result, record :: out.cache, out.persistCalls⟩

/-! ## Startup load (`load_data_once`, lines 16-37) -/

/-- One line of the backing file, as the loop classifies it: stripped
empty (`continue`), `json.JSONDecodeError` (skipped with a warning), or
a record successfully decoded by the opaque codec. -/
inductive RawLine where
  | blank : RawLine
  | invalid : RawLine
  | valid : Record → RawLine
deriving DecidableEq

/-- The record a line contributes, if any. -/
def decodedLine : RawLine → Option Record
  | RawLine.valid r => some r
  | _ => none

/-- The records of the decodable lines, in file order. -/
def decodedRecords (lines : List RawLine) : List Record :=
  lines.filterMap decodedLine

/-- The `for line in f` loop: blank and undecodable lines are skipped,
decoded records are appended to `DATA_CACHE`. -/
def load_loop : List RawLine → List Record → List Record
  | [], cache => cache
  | RawLine.blank :: rest, cache => load_loop rest cache
  | RawLine.invalid :: rest, cache => load_loop rest cache
  | RawLine.valid r :: rest, cache => load_loop rest (cache ++ [r])

/-- The successful outcome of the startup load: the populated cache and
the record count the final print reports. -/
structure LoadReport where
  cache : List Record
  reportedCount : Nat
deriving DecidableEq

/-- `load_data_once()`: `FileNotFoundError` when `FILE_PATH` does not
exist (the file's contents are `none`), otherwise the loop over the
lines followed by the count report. -/
def load_data_once : Option (List RawLine) → Except String LoadReport
  | none => Except.error "File not found: payments.jsonl.gz"
  | some lines =>
    let cache := load_loop lines []
    Except.ok ⟨cache, cache.length⟩

/-! ## The persistence writer (`save_data_async`, lines 40-48) -/

/-- `save_data_async()` spawns a fresh daemon thread running `_write`
unconditionally: it consults no in-flight or queued state, so each call
adds one full write of the cache to the writes being performed. The
state tracked is the total number of spawned writes. -/
def save_data_async (spawned_writes : Nat) : Nat :=
  spawned_writes + 1

/-- `k` successive `requestPersist` signals, each handled by the code's
`save_data_async`. -/
def request_persist_times : Nat → Nat → Nat
  | 0, s => s
  | k + 1, s => request_persist_times k (save_data_async s)

/-- The `_write` body opens `FILE_PATH` itself in mode `"wt"` — which
truncates the durable file at once — and then appends one serialized
record per iteration; no temporary file or atomic rename is involved.
After `steps` loop iterations the durable file therefore holds exactly
the first `steps` records of the cache being written, whatever it held
before. -/
def truncating_write (cache : List Record) (steps : Nat) : List Record :=
  cache.take steps

/-! ## Concrete records for closed instances -/

/-- A pending record (the Scenario's `t1`). -/
def recW1 : Record := ⟨"t1", "2024-01-01", "Stripe", "pending", none, []⟩

/-- An already-approved record (the Scenario's `t2`). -/
def recW2 : Record := ⟨"t2", "2024-02-01", "adyen", "approved", none, []⟩

/-- A second pending record (the Scenario's `t3`). -/
def recW3 : Record := ⟨"t3", "2024-01-05", "stripe", "pending", none, []⟩

/-- A three-record store. -/
def cacheW : List Record := [recW1, recW2, recW3]

/-- An oracle whose probabilistic draw fires. -/
def oracleHit : Oracle := ⟨true, 0, "2024-03-01T00:00:00Z"⟩

/-- An oracle whose probabilistic draw does not fire. -/
def oracleMiss : Oracle := ⟨false, 0, ""⟩

/-! ## The claims -/

lemma matchesFilters_eq_true (date psp_name status : Option String) (r : Record) :
    matchesFilters date psp_name status r = true ↔
      (date.all fun d => startswith d r.processing_date) = true
      ∧ (psp_name.all fun s => lower r.psp_name = lower s) = true
      ∧ (status.all fun s => lower r.status = lower s) = true := by
  simp [matchesFilters, Bool.and_eq_true, and_assoc]

/-- C2: for every store and every combination of supplied filters (a
supplied filter being a non-empty value), the filtered sequence contains
a record exactly when the record is in the store and satisfies every
supplied predicate — date-prefix on `processing_date`, case-insensitive
equality on `psp_name` and on `status` — and it is a sublist of the
store, so the survivors keep their original order. -/
theorem get_payments_filter_correct (date psp_name status : Option String)
    (cache : List Record) (hd : date ≠ some "") (hp : psp_name ≠ some "")
    (hs : status ≠ some "") :
    (∀ r, r ∈ filteredData date psp_name status cache ↔
        r ∈ cache ∧ matchesFilters date psp_name status r = true)
    ∧ List.Sublist (filteredData date psp_name status cache) cache := by
  constructor
  · intro r
    rw [filteredData,
      mem_condFilter _ _ _ _ hs,
      mem_condFilter _ _ _ _ hp,
      mem_condFilter _ _ _ _ hd,
      matchesFilters_eq_true]
    tauto
  · exact ((condFilter_sublist _ _ _).trans
      (condFilter_sublist _ _ _)).trans (condFilter_sublist _ _ _)

/-- Closed instance of C2 at a concrete store and filter combination. -/
theorem get_payments_filter_correct_witness :
    (recW1 ∈ filteredData (some "2024-01") none (some "PENDING") cacheW ↔
        recW1 ∈ cacheW ∧ matchesFilters (some "2024-01") none (some "PENDING") recW1 = true)
    ∧ List.Sublist (filteredData (some "2024-01") none (some "PENDING") cacheW) cacheW :=
  ⟨(get_payments_filter_correct (some "2024-01") none (some "PENDING") cacheW
      (by decide) (by decide) (by decide)).1 recW1,
   (get_payments_filter_correct (some "2024-01") none (some "PENDING") cacheW
      (by decide) (by decide) (by decide)).2⟩

/-- The filtered sequence after the whole simulation pass of
`get_payments` — the list the pagination slice is cut from. -/
def mutatedData (date psp_name status : Option String) (os : Nat → Oracle)
    (cache : List Record) : List Record :=
  (simulate_records os (filteredData date psp_name status cache) 0 false).1

lemma get_payments_persistCalls (date : Option String) (page limit : Nat)
    (psp_name status : Option String) (os : Nat → Oracle) (cache : List Record) :
    (get_payments date page limit psp_name status os cache).persistCalls =
      if (simulate_records os (filteredData date psp_name status cache) 0 false).2
      then 1 else 0 := by
  rw [get_payments]
  split <;> rfl

lemma get_payments_result (date : Option String) (page limit : Nat)
    (psp_name status : Option String) (os : Nat → Oracle) (cache : List Record) :
    (get_payments date page limit psp_name status os cache).result =
      if ((mutatedData date psp_name status os cache).drop ((page - 1) * limit)).take
          (page * limit - (page - 1) * limit) = [] then
        Except.error ⟨404, "No more records"⟩
      else
        Except.ok (mkListJson date page limit
          (((mutatedData date psp_name status os cache).drop ((page - 1) * limit)).take
            (page * limit - (page - 1) * limit))) := by
  rw [get_payments, mutatedData]
  simp only [List.isEmpty_iff]
  split <;> rfl

/-- C3: `get_payments` invokes the simulator on the whole filtered
result (the mutated list has the same length and its `j`-th entry is the
simulator applied to the `j`-th filtered record), the returned page is
sliced from that fully mutated list, and `save_data_async` is called
exactly once when some record's status changed and not at all when none
did. -/
theorem get_payments_simulates_all_then_pages
    (date : Option String) (page limit : Nat) (psp_name status : Option String)
    (os : Nat → Oracle) (cache : List Record) :
    ((mutatedData date psp_name status os cache).length =
        (filteredData date psp_name status cache).length)
    ∧ (∀ j, (mutatedData date psp_name status os cache)[j]? =
        ((filteredData date psp_name status cache)[j]?).map fun r =>
          maybe_update_status (os j) r)
    ∧ ((get_payments date page limit psp_name status os cache).persistCalls = 1 ↔
        ∃ j r, (filteredData date psp_name status cache)[j]? = some r
          ∧ (maybe_update_status (os j) r).status ≠ r.status)
    ∧ ((get_payments date page limit psp_name status os cache).persistCalls = 0 ↔
        ∀ j r, (filteredData date psp_name status cache)[j]? = some r →
          (maybe_update_status (os j) r).status = r.status)
    ∧ (∀ reply, (get_payments date page limit psp_name status os cache).result =
          Except.ok reply →
        reply = mkListJson date page limit
          (((mutatedData date psp_name status os cache).drop ((page - 1) * limit)).take
            (page * limit - (page - 1) * limit))) := by
  have hflag := simulate_records_flag os (filteredData date psp_name status cache) 0 false
  have hchanged :
      (simulate_records os (filteredData date psp_name status cache) 0 false).2 = true ↔
        ∃ j r, (filteredData date psp_name status cache)[j]? = some r
          ∧ (maybe_update_status (os j) r).status ≠ r.status := by
    rw [hflag]
    simp
  refine ⟨simulate_records_length os _ 0 false, ?_, ?_, ?_, ?_⟩
  · intro j
    simpa using simulate_records_getElem os (filteredData date psp_name status cache) 0 false j
  · rw [get_payments_persistCalls, ← hchanged]
    split <;> rename_i hcase <;> simp [hcase]
  · rw [get_payments_persistCalls]
    have : (∀ j r, (filteredData date psp_name status cache)[j]? = some r →
        (maybe_update_status (os j) r).status = r.status) ↔
        ¬ ∃ j r, (filteredData date psp_name status cache)[j]? = some r
          ∧ (maybe_update_status (os j) r).status ≠ r.status := by
      push_neg
      constructor
      · intro h j r hj; exact h j r hj
      · intro h j r hj; exact h j r hj
    rw [this, ← hchanged]
    split <;> rename_i hcase <;> simp [hcase]
  · intro reply hreply
    rw [get_payments_result] at hreply
    split at hreply
    · exact absurd hreply (by simp)
    · exact (Except.ok.injEq _ _ |>.mp hreply).symm

lemma page_window (page limit : Nat) (hpage : 1 ≤ page) :
    page * limit - (page - 1) * limit = limit := by
  obtain ⟨p, rfl⟩ : ∃ p, page = p + 1 := ⟨page - 1, by omega⟩
  simp [Nat.succ_mul]

/-- C4: for `page ≥ 1` and `limit ∈ [1, 100]`, the returned page is the
slice of the filtered-and-mutated sequence at `[(page-1)*limit,
page*limit)`, its length is at most `limit`, and whenever that slice is
empty — in particular whenever the sequence ends at or before the
offset `(page-1)*limit` — the call raises the 404 `"No more records"`
instead of a page. -/
theorem get_payments_pagination
    (date psp_name status : Option String) (page limit : Nat)
    (os : Nat → Oracle) (cache : List Record)
    (hpage : 1 ≤ page) (hlim1 : 1 ≤ limit) (hlim2 : limit ≤ 100) :
    ((get_payments date page limit psp_name status os cache).result =
      if ((mutatedData date psp_name status os cache).drop ((page - 1) * limit)).take limit
          = [] then
        Except.error ⟨404, "No more records"⟩
      else
        Except.ok (mkListJson date page limit
          (((mutatedData date psp_name status os cache).drop ((page - 1) * limit)).take limit)))
    ∧ (((mutatedData date psp_name status os cache).drop ((page - 1) * limit)).take limit).length
        ≤ limit
    ∧ ((mutatedData date psp_name status os cache).length ≤ (page - 1) * limit →
        (get_payments date page limit psp_name status os cache).result =
          Except.error ⟨404, "No more records"⟩) := by
  have hw := page_window page limit hpage
  have hres := get_payments_result date page limit psp_name status os cache
  rw [hw] at hres
  refine ⟨hres, List.length_take_le limit _, fun hlen => ?_⟩
  rw [hres, if_pos]
  rw [List.drop_eq_nil_iff.mpr hlen, List.take_nil]

/-- Closed instance of C4: on the three-record store, page 1 with limit
2 returns the first two mutated records, and page 5 with limit 2 is past
the end and raises the 404. -/
theorem get_payments_pagination_witness :
    ((get_payments none 1 2 none none (fun _ => oracleMiss) cacheW).result =
      if ((mutatedData none none none (fun _ => oracleMiss) cacheW).drop 0).take 2 = [] then
        Except.error ⟨404, "No more records"⟩
      else
        Except.ok (mkListJson none 1 2
          (((mutatedData none none none (fun _ => oracleMiss) cacheW).drop 0).take 2)))
    ∧ ((get_payments none 5 2 none none (fun _ => oracleMiss) cacheW).result =
        Except.error ⟨404, "No more records"⟩) :=
  ⟨by
    have h := (get_payments_pagination none none none 1 2 (fun _ => oracleMiss) cacheW
      (by decide) (by decide) (by decide)).1
    simpa using h,
   (get_payments_pagination none none none 5 2 (fun _ => oracleMiss) cacheW
      (by decide) (by decide) (by decide)).2.2 (by decide)⟩

/-- C7: `get_payment` scans the cache for the id; when no record
carries it, it raises the 404 `"Transaction not found"`, leaves the
cache untouched and never persists; when the first record carrying it
sits at position `i`, it returns that record with the simulator applied
exactly once, the cache changes at position `i` alone, and persistence
is requested exactly when the status changed. -/
theorem get_payment_spec :
    ∀ (txn_id : String) (o : Oracle) (cache : List Record),
      ((∀ r ∈ cache, r.id ≠ txn_id) →
        get_payment txn_id o cache =
          ⟨Except.error ⟨404, "Transaction not found"⟩, cache, 0⟩)
      ∧ (∀ i r, cache[i]? = some r → r.id = txn_id →
          (∀ j s, j < i → cache[j]? = some s → s.id ≠ txn_id) →
          get_payment txn_id o cache =
            ⟨Except.ok (maybe_update_status o r),
             cache.set i (maybe_update_status o r),
             if (maybe_update_status o r).status ≠ r.status then 1 else 0⟩) := by
  intro txn_id o cache
  induction cache with
  | nil =>
    refine ⟨fun _ => rfl, fun i r hi _ _ => ?_⟩
    simp at hi
  | cons hd tl ih =>
    constructor
    · intro hnone
      have hhd : ¬ hd.id = txn_id := hnone hd (List.mem_cons_self hd tl)
      rw [get_payment, if_neg hhd, ih.1 fun r hr => hnone r (List.mem_cons_of_mem hd hr)]
    · intro i r hi hr hfirst
      cases i with
      | zero =>
        simp only [List.getElem?_cons_zero, Option.some.injEq] at hi
        subst hi
        rw [get_payment, if_pos hr, List.set_cons_zero]
      | succ i =>
        have hhd : ¬ hd.id = txn_id := by
          have := hfirst 0 hd (Nat.succ_pos i) (by simp)
          exact this
        simp only [List.getElem?_cons_succ] at hi
        have htl := ih.2 i r hi hr fun j s hj hjs =>
          hfirst (j + 1) s (Nat.succ_lt_succ hj) (by simpa using hjs)
        rw [get_payment, if_neg hhd, htl, List.set_cons_succ]

lemma load_loop_eq (lines : List RawLine) :
    ∀ acc, load_loop lines acc = acc ++ decodedRecords lines := by
  induction lines with
  | nil => intro acc; simp [load_loop, decodedRecords]
  | cons l rest ih =>
    intro acc
    cases l <;> simp [load_loop, decodedRecords, decodedLine, List.filterMap_cons, ih]

/-- C9: the startup load fails when the backing file is absent; when it
is present the load never fails, a line that does not decode is dropped
while every decodable line's record is loaded in file order, and the
reported count is the number of loaded records. -/
theorem load_data_once_spec :
    (load_data_once none = Except.error "File not found: payments.jsonl.gz")
    ∧ (∀ lines, load_data_once (some lines) =
        Except.ok ⟨decodedRecords lines, (decodedRecords lines).length⟩)
    ∧ (∀ pre post, decodedRecords (pre ++ RawLine.invalid :: post) =
        decodedRecords pre ++ decodedRecords post)
    ∧ (∀ lines r, RawLine.valid r ∈ lines → r ∈ decodedRecords lines) := by
  refine ⟨rfl, fun lines => ?_, fun pre post => ?_, fun lines r hr => ?_⟩
  · rw [load_data_once, load_loop_eq lines []]
    rfl
  · simp [decodedRecords, List.filterMap_append, List.filterMap_cons, decodedLine]
  · exact List.mem_filterMap.mpr ⟨RawLine.valid r, hr, rfl⟩

/-- C5 is violated by the code: `save_data_async` spawns one
unconditional write per call, so `k` signals add `k` writes — in
particular three signals arriving while one write is in flight leave
four spawned writes, not the two (one in flight plus exactly one
queued) the claim allows. -/
theorem save_data_async_no_coalescing :
    (∀ k s, request_persist_times k s = s + k)
    ∧ request_persist_times 3 1 = 4 ∧ (4 : Nat) ≠ 2 := by
  have hall : ∀ k s, request_persist_times k s = s + k := by
    intro k
    induction k with
    | zero => intro s; rfl
    | succ k ih =>
      intro s
      rw [request_persist_times, ih, save_data_async]
      omega
  exact ⟨hall, hall 3 1, by decide⟩

/-- C6 is violated by the code: `_write` truncates `FILE_PATH` in place
and appends record by record, so a write of the two-record snapshot
`[recW2, recW3]` over the old one-record snapshot `[recW1]` interrupted
after one record leaves the file holding `[recW2]` — neither the old
nor the new snapshot — and interrupted immediately after the truncating
open leaves it empty. -/
theorem truncating_write_not_atomic :
    truncating_write [recW2, recW3] 1 = [recW2]
    ∧ [recW2] ≠ ([recW1] : List Record)
    ∧ [recW2] ≠ ([recW2, recW3] : List Record)
    ∧ truncating_write [recW2, recW3] 0 = []
    ∧ ([] : List Record) ≠ [recW1] := by
  refine ⟨rfl, by decide, by decide, rfl, by decide⟩

/-- The claim that every successful `get_payments` response echoes all
of the request's filters fails: this call supplies the `psp_name` and
`status` filters, succeeds, yet its response dictionary holds only the
keys `date`, `page`, `limit`, `count` and `data` — no `psp_name` or
`status` key. -/
theorem get_payments_echo_counterexample :
    (get_payments none 1 10 (some "ADYEN") (some "APPROVED")
        (fun _ => oracleMiss) [recW2]).result = Except.ok (mkListJson none 1 10 [recW2])
    ∧ (mkListJson none 1 10 [recW2]).map Prod.fst = ["date", "page", "limit", "count", "data"]
    ∧ "psp_name" ∉ (mkListJson none 1 10 [recW2]).map Prod.fst
    ∧ "status" ∉ (mkListJson none 1 10 [recW2]).map Prod.fst := by
  exact ⟨by decide, by decide, by decide, by decide⟩

/-- C8 as amended: every successful `get_payments` response is the
dictionary with exactly the keys `date`, `page`, `limit`, `count`,
`data`, echoing the `date` filter (but neither `psp_name` nor `status`),
the page number and the limit, and carrying the page's records together
with their count. -/
theorem get_payments_echo (date : Option String) (page limit : Nat)
    (psp_name status : Option String) (os : Nat → Oracle) (cache : List Record)
    (reply : List (String × JVal))
    (h : (get_payments date page limit psp_name status os cache).result = Except.ok reply) :
    reply = mkListJson date page limit
        (((mutatedData date psp_name status os cache).drop ((page - 1) * limit)).take
          (page * limit - (page - 1) * limit))
    ∧ ("date", joptStr date) ∈ reply
    ∧ ("page", JVal.jnat page) ∈ reply
    ∧ ("limit", JVal.jnat limit) ∈ reply
    ∧ ("count", JVal.jnat (((mutatedData date psp_name status os cache).drop
          ((page - 1) * limit)).take (page * limit - (page - 1) * limit)).length) ∈ reply
    ∧ ("data", JVal.jrecords (((mutatedData date psp_name status os cache).drop
          ((page - 1) * limit)).take (page * limit - (page - 1) * limit))) ∈ reply
    ∧ reply.map Prod.fst = ["date", "page", "limit", "count", "data"] := by
  rw [get_payments_result] at h
  split at h
  · exact absurd h (by simp)
  · have hr : reply = mkListJson date page limit
        (((mutatedData date psp_name status os cache).drop ((page - 1) * limit)).take
          (page * limit - (page - 1) * limit)) :=
      ((Except.ok.injEq _ _).mp h).symm
    subst hr
    refine ⟨rfl, ?_, ?_, ?_, ?_, ?_, rfl⟩ <;> simp [mkListJson]

/-- Closed instance of the amended C8 at a concrete successful call. -/
theorem get_payments_echo_witness :
    ("date", joptStr none) ∈ mkListJson none 1 10 [recW2]
    ∧ ("page", JVal.jnat 1) ∈ mkListJson none 1 10 [recW2]
    ∧ (mkListJson none 1 10 [recW2]).map Prod.fst =
        ["date", "page", "limit", "count", "data"] := by
  have h := get_payments_echo none 1 10 (some "ADYEN") (some "APPROVED")
    (fun _ => oracleMiss) [recW2] (mkListJson none 1 10 [recW2]) (by decide)
  exact ⟨h.2.1, h.2.2.1, h.2.2.2.2.2.2⟩

/-- Closed instance of C1: an approved record survives a firing oracle
and a two-invocation sequence unchanged. -/
theorem transitions_one_way_witness :
    maybe_update_status oracleHit recW2 = recW2
    ∧ iterate_updates [oracleHit, oracleMiss] recW2 = recW2 :=
  ⟨transitions_one_way.1 recW2 (by decide) oracleHit,
   transitions_one_way.2.1 recW2 (by decide) [oracleHit, oracleMiss]⟩

/-- Closed instance of C10: advancing a concrete pending record lands
in the transition table's destinations with a non-null timestamp. -/
theorem maybe_update_status_frame_witness :
    (maybe_update_status oracleHit recW1).status ∈
      (STATUS_TRANSITIONS.lookup "pending").getD []
    ∧ (maybe_update_status oracleHit recW1).status_updated_at.isSome = true :=
  (maybe_update_status_frame oracleHit recW1).2.1 rfl rfl

/-- Closed instance of C3: with an always-firing oracle on the
three-record store, some pending record advances and exactly one
persistence request is issued. -/
theorem get_payments_simulates_all_then_pages_witness :
    (get_payments none 1 10 none none (fun _ => oracleHit) cacheW).persistCalls = 1 :=
  (get_payments_simulates_all_then_pages none 1 10 none none
      (fun _ => oracleHit) cacheW).2.2.1.mpr ⟨0, recW1, by decide, by decide⟩

/-- Closed instance of C7, the Scenario of the specification: fetching
`t2` returns the approved record unchanged, leaves the cache as it was
and triggers no persist. -/
theorem get_payment_spec_witness :
    get_payment "t2" oracleHit cacheW = ⟨Except.ok recW2, cacheW, 0⟩ := by
  have h := (get_payment_spec "t2" oracleHit cacheW).2 1 recW2 (by decide) (by decide)
    (fun j s hj hjs => by
      have hj0 : j = 0 := by omega
      subst hj0
      simp only [cacheW, List.getElem?_cons_zero, Option.some.injEq] at hjs
      subst hjs
      decide)
  exact h.trans (by decide)

/-- Closed instance of C9: a blank line and an undecodable line are
dropped, the one valid record is loaded and the count reported is 1. -/
theorem load_data_once_spec_witness :
    load_data_once (some [RawLine.blank, RawLine.invalid, RawLine.valid recW1]) =
      Except.ok ⟨[recW1], 1⟩ := by
  have h := load_data_once_spec.2.1 [RawLine.blank, RawLine.invalid, RawLine.valid recW1]
  exact h.trans (by decide)
